import Mathlib

/-!
Verification development for the solana-spl-holder service (src/server/main.go).

The Go program maintains a MariaDB mirror of SPL token holder accounts and
exposes it through an HTTP API.  This file gives a shallow embedding of the
parts of the program the claims are about:

* the data model (`Holder` rows, RPC response shapes) mirroring the Go structs;
* `upsertHolderMariaDB`, the insert-or-update used by the sync pipeline
  (main.go lines 243-294), with the MariaDB table's unique key
  (mint_address, pubkey) and `ON DUPLICATE KEY UPDATE` semantics made explicit
  over a list-of-rows store;
* `updateHolderState`, the explicit state-mutation path (lines 920-956), and
  the surrounding handler validation (`HolderUpdateRequest.Validate`,
  lines 207-215, and `handleUpdateHolderState`, lines 959-1034);
* `processBatch` / `fetchAndStoreData`, the per-asset sync pass
  (lines 1274-1311), including the type discriminator check, per-record
  failure isolation and the single transaction around the batch;
* the read endpoint `apiHandlerMariaDB` (lines 1094-1206), split into
  `buildHolderQuery` (the SQL text and bind arguments the handler assembles)
  and `runHolderQuery` (the semantics of executing that SQL over the store).

Timestamps (`CURRENT_TIMESTAMP`) are modelled as an explicit `now : Nat`
argument.  The DECIMAL(38,0) column `amount` is modelled as `Int`; the
DECIMAL(38,6) column `ui_amount` is modelled as `Int` (its value in units of
10^-6), since no claim computes with it - it is only stored and copied.
-/

set_option maxRecDepth 16384

namespace SplHolder

/-! ## Data model: RPC response shapes (main.go lines 69-127) -/

/-- Mirrors Go struct TokenAmount (Amount string holding a DECIMAL(38,0)
integer, modelled as Int; UIAmount modelled as Int as explained above). -/
structure TokenAmount where
  amount : Int
  decimals : Int
  uiAmount : Int
  uiAmountString : String
deriving DecidableEq

/-- Mirrors Go struct Info. -/
structure Info where
  isNative : Bool
  owner : String
  state : String
  tokenAmount : TokenAmount
deriving DecidableEq

/-- Mirrors Go struct Parsed; `type` is the observation discriminator. -/
structure Parsed where
  info : Info
  type : String
deriving DecidableEq

/-- Mirrors Go struct Data. -/
structure RawData where
  parsed : Parsed
deriving DecidableEq

/-- Mirrors Go struct Account. -/
structure Account where
  lamports : Nat
  data : RawData
  owner : String
deriving DecidableEq

/-- Mirrors Go struct ResultItem: one raw holder observation. -/
structure ResultItem where
  pubkey : String
  account : Account
deriving DecidableEq

/-- Mirrors Go struct RPCError. -/
structure RPCError where
  code : Int
  message : String
deriving DecidableEq

/-- Mirrors Go struct RPCResponse (the jsonrpc/id fields are irrelevant). -/
structure RPCResponse where
  result : List ResultItem
  error : Option RPCError
deriving DecidableEq

/-! ## Data model: the holder table (main.go lines 130-144 and the CREATE
TABLE at lines 340-359) -/

/-- Mirrors Go struct Holder, one row of the `holder` table.  Timestamps are
Nat ticks. -/
structure Holder where
  id : Int
  mint_address : String
  pubkey : String
  lamports : Nat
  is_native : Bool
  owner : String
  state : String
  decimals : Int
  amount : Int
  ui_amount : Int
  ui_amount_string : String
  created_at : Nat
  updated_at : Nat
deriving DecidableEq

/-- The holder table, as a list of rows in insertion order.  The table's
UNIQUE KEY (mint_address, pubkey) is realised by `upsertHolderMariaDB`, which
updates in place instead of inserting when the key is present. -/
abbrev Store := List Holder

/-- Mirrors the membership test of the composite key: does `r` sit at
identity (mint, pubkey)? -/
def keyMatches (mint pubkey : String) (r : Holder) : Bool :=
  r.mint_address == mint && r.pubkey == pubkey

/-- Does some row of the store carry the identity (mint, pubkey)? -/
def hasKey (st : Store) (mint pubkey : String) : Bool :=
  st.any (keyMatches mint pubkey)

/-! ## HolderUpdateRequest.Validate (main.go lines 206-215) -/

/-- The fixed 3-value state enum of main.go line 208. -/
def validStates : List String := ["Uninitialized", "Initialized", "Frozen"]

/-- Mirrors HolderUpdateRequest.Validate: true iff the state is one of the
three enum values (case-sensitive equality, as in the Go loop). -/
def holderUpdateValidate (state : String) : Bool :=
  validStates.any (fun v => state == v)

/-! ## upsertHolderMariaDB (main.go lines 243-294)

The Go function validates that the mint address and the pubkey are nonempty,
then executes INSERT ... ON DUPLICATE KEY UPDATE which overwrites lamports,
is_native, owner, state, decimals, amount, ui_amount, ui_amount_string and
updated_at of the row with the same (mint_address, pubkey), or inserts a
fresh row (created_at = updated_at = CURRENT_TIMESTAMP) when the key is new.
Note that the `state` carried by the observation is stored verbatim - the
function performs no enum check. -/

/-- The ON DUPLICATE KEY UPDATE branch: overwrite every mutable field of an
existing row from the observation; updated_at := now; id, mint_address,
pubkey, created_at untouched. -/
def applyItemFields (now : Nat) (item : ResultItem) (r : Holder) : Holder :=
  let info := item.account.data.parsed.info
  { r with
    lamports := item.account.lamports
    is_native := info.isNative
    owner := info.owner
    state := info.state
    decimals := info.tokenAmount.decimals
    amount := info.tokenAmount.amount
    ui_amount := info.tokenAmount.uiAmount
    ui_amount_string := info.tokenAmount.uiAmountString
    updated_at := now }

/-- AUTO_INCREMENT primary key for a fresh insert. -/
def nextId (st : Store) : Int :=
  (st.map (fun r => r.id)).foldl max 0 + 1

/-- The INSERT branch: a fresh row built from the observation. -/
def freshHolder (now : Nat) (id : Int) (mint : String) (item : ResultItem) : Holder :=
  let info := item.account.data.parsed.info
  { id := id
    mint_address := mint
    pubkey := item.pubkey
    lamports := item.account.lamports
    is_native := info.isNative
    owner := info.owner
    state := info.state
    decimals := info.tokenAmount.decimals
    amount := info.tokenAmount.amount
    ui_amount := info.tokenAmount.uiAmount
    ui_amount_string := info.tokenAmount.uiAmountString
    created_at := now
    updated_at := now }

/-- The successful effect of the upsert statement on the store. -/
def upsertEffect (now : Nat) (st : Store) (mint : String) (item : ResultItem) : Store :=
  if hasKey st mint item.pubkey then
    st.map (fun r => if keyMatches mint item.pubkey r then applyItemFields now item r else r)
  else
    st ++ [freshHolder now (nextId st) mint item]

/-- Mirrors upsertHolderMariaDB: reject empty mint address or empty pubkey,
otherwise run the upsert statement. -/
def upsertHolderMariaDB (now : Nat) (st : Store) (mint : String) (item : ResultItem) :
    Except String Store :=
  if mint == "" then .error "mint address must not be empty"
  else if item.pubkey == "" then .error "pubkey must not be empty"
  else .ok (upsertEffect now st mint item)

/-! ## updateHolderState (main.go lines 920-956) and its handler
(lines 959-1034) -/

/-- Mirrors updateHolderState: check that a row with the identity exists
(returning the store unchanged and no record when it does not, the NotFound
case), otherwise UPDATE state and updated_at of the matching row and SELECT
the updated record back. -/
def updateHolderState (now : Nat) (st : Store) (mint pubkey state : String) :
    Store × Option Holder :=
  if hasKey st mint pubkey then
    let st2 := st.map (fun r =>
      if keyMatches mint pubkey r then { r with state := state, updated_at := now } else r)
    (st2, st2.find? (keyMatches mint pubkey))
  else
    (st, none)

/-- Outcome of the PUT /holders/:mint/:pubkey handler. -/
inductive UpdateOutcome where
  | validationError
  | notFound
  | updated (h : Holder)
deriving DecidableEq

/-- Mirrors handleUpdateHolderState after body decoding: validate the
requested state against the enum (rejecting the request and leaving the
store untouched on failure), then run updateHolderState. -/
def handleUpdateHolderState (now : Nat) (st : Store) (mint pubkey state : String) :
    Store × UpdateOutcome :=
  if holderUpdateValidate state then
    match updateHolderState now st mint pubkey state with
    | (st2, some h) => (st2, .updated h)
    | (_, none) => (st, .notFound)
  else
    (st, .validationError)

/-! ## The read endpoint apiHandlerMariaDB (main.go lines 1094-1206)

The handler reads the URL query parameters page, limit, owner, mint_address
and sort.  `QueryParams` additionally records the `state` key of the URL so
that the model is a function of the full request: the Go handler never reads
that key, and correspondingly no definition below looks at the field. -/

/-- The raw URL query parameters of a GET /holders request (absent keys are
the empty string, as with Go url.Values.Get). -/
structure QueryParams where
  page : String
  limit : String
  owner : String
  mint_address : String
  sort : String
  state : String
deriving DecidableEq

/-- Decimal digit value of a character, if it is one. -/
def digitVal (c : Char) : Option Nat :=
  if c == '0' then some 0 else if c == '1' then some 1 else if c == '2' then some 2
  else if c == '3' then some 3 else if c == '4' then some 4 else if c == '5' then some 5
  else if c == '6' then some 6 else if c == '7' then some 7 else if c == '8' then some 8
  else if c == '9' then some 9 else none

/-- Accumulator over a digit run; any non-digit character fails the parse,
as strconv.Atoi does. -/
def digitsAcc : List Char → Nat → Option Nat
  | [], acc => some acc
  | c :: rest, acc =>
    match digitVal c with
    | some d => digitsAcc rest (acc * 10 + d)
    | none => none

/-- A nonempty digit run (Atoi rejects an empty numeral). -/
def digitsToNat : List Char → Option Nat
  | [] => none
  | l => digitsAcc l 0

/-- 2^63, the magnitude of the int64 bounds of Go `int` on a 64-bit
platform. -/
def int64Bound : Int := 9223372036854775808

/-- 2^64, the size of the int64 value range. -/
def uint64Size : Int := 18446744073709551616

/-- Clamping to the int64 range [MinInt64, MaxInt64]: what strconv.ParseInt
returns together with ErrRange for a well-formed numeral that is out of
range. -/
def clampInt64 (n : Int) : Int :=
  if n < -int64Bound then -int64Bound
  else if n > int64Bound - 1 then int64Bound - 1
  else n

/-- Two's-complement value of n taken modulo 2^64: the result Go's wrapping
int arithmetic stores for the mathematical value n. -/
def wrap64 (n : Int) : Int :=
  if n % uint64Size < int64Bound then n % uint64Size
  else n % uint64Size - uint64Size

/-- Go strconv.Atoi on a 64-bit platform: an optional sign followed by at
least one digit; a well-formed numeral outside the int64 range yields the
nearest bound together with ErrRange (the handler ignores the error and
keeps the clamped value); anything else is a syntax error. -/
def goAtoi (s : String) : Option Int :=
  match s.data with
  | '-' :: rest => (digitsToNat rest).map (fun n => clampInt64 (-(n : Int)))
  | '+' :: rest => (digitsToNat rest).map (fun n => clampInt64 (n : Int))
  | l => (digitsToNat l).map (fun n => clampInt64 (n : Int))

/-- Go strconv.Atoi with the error ignored: the handler keeps the zero value
on a syntax error and the clamped value on a range error
(`page, _ := strconv.Atoi(...)`). -/
def atoiOrZero (s : String) : Int :=
  (goAtoi s).getD 0

/-- The decimal digit character. -/
def digitChar (n : Nat) : Char :=
  if n == 0 then '0' else if n == 1 then '1' else if n == 2 then '2' else if n == 3 then '3'
  else if n == 4 then '4' else if n == 5 then '5' else if n == 6 then '6'
  else if n == 7 then '7' else if n == 8 then '8' else '9'

/-- Decimal digits of n, most significant first (fuel-structured recursion;
the fuel n + 1 always suffices). -/
def natDigits : Nat → Nat → List Char
  | 0, _ => []
  | fuel + 1, n =>
    if n < 10 then [digitChar n] else natDigits fuel (n / 10) ++ [digitChar (n % 10)]

/-- fmt.Sprintf %d rendering of an integer. -/
def intToStr (i : Int) : String :=
  if i < 0 then "-" ++ String.mk (natDigits (i.natAbs + 1) i.natAbs)
  else String.mk (natDigits (i.natAbs + 1) i.natAbs)

/-- Effective page: `if page < 1 { page = 1 }` (line 1105). -/
def effPage (q : QueryParams) : Int :=
  if atoiOrZero q.page < 1 then 1 else atoiOrZero q.page

/-- Effective limit: `if limit <= 0 { limit = 10 }` then
`if limit > 1000 { limit = 1000 }` (lines 1109-1114). -/
def effLimit (q : QueryParams) : Int :=
  if (if atoiOrZero q.limit ≤ 0 then 10 else atoiOrZero q.limit) > 1000 then 1000
  else if atoiOrZero q.limit ≤ 0 then 10 else atoiOrZero q.limit

/-- `offset := (page - 1) * limit` (line 1115), computed in Go's wrapping
64-bit int arithmetic: page - 1 cannot overflow (page lies in
[1, MaxInt64]), but the product can, wrapping to a negative offset for
large pages. -/
def queryOffset (q : QueryParams) : Int :=
  wrap64 ((effPage q - 1) * effLimit q)

/-! ### The SQL text the handler assembles (lines 1116-1146) -/

/-- The fixed SELECT head of line 1116. -/
def holderSelectColumns : String :=
  "SELECT id, mint_address, pubkey, lamports, is_native, owner, state, decimals, amount, ui_amount, ui_amount_string, created_at, updated_at FROM holder"

/-- The conds slice: always starts with the implicit "amount > 0" predicate
(line 1120), then `owner = ?` and `mint_address = ?` when those parameters
are nonempty. -/
def holderConds (q : QueryParams) : List String :=
  ["amount > 0"] ++ (if q.owner == "" then [] else ["owner = ?"])
    ++ (if q.mint_address == "" then [] else ["mint_address = ?"])

/-- The bind arguments, in the order they are appended (owner first, then
mint_address). -/
def holderArgs (q : QueryParams) : List String :=
  (if q.owner == "" then [] else [q.owner])
    ++ (if q.mint_address == "" then [] else [q.mint_address])

/-- The WHERE clause.  Since conds always contains "amount > 0" the Go guard
`len(conds) > 0` is always true, so the clause is always emitted. -/
def whereClause (q : QueryParams) : String :=
  " WHERE " ++ String.intercalate " AND " (holderConds q)

/-- Does the sort parameter begin with the descending marker "-"
(strings.HasPrefix(sort, "-"))? -/
def sortDesc (sort : String) : Bool :=
  match sort.data with
  | c :: _ => c == '-'
  | [] => false

/-- The column the sort parameter names: the Go slice sort[1:] when the
descending marker is present, the whole text otherwise. -/
def sortColumn (sort : String) : String :=
  match sort.data with
  | '-' :: rest => String.mk rest
  | _ => sort

/-- The ORDER BY clause of lines 1132-1141: a leading "-" selects DESC and
is stripped; the remaining text is concatenated into the statement verbatim. -/
def orderClause (sort : String) : String :=
  if sort == "" then ""
  else if sortDesc sort then " ORDER BY " ++ sortColumn sort ++ " DESC"
  else " ORDER BY " ++ sortColumn sort ++ " ASC"

/-- The LIMIT/OFFSET tail of line 1142 (fmt.Sprintf with %d). -/
def limitClause (q : QueryParams) : String :=
  " LIMIT " ++ intToStr (effLimit q) ++ " OFFSET " ++ intToStr (queryOffset q)

/-- The SQL text and bind arguments of both statements the handler runs. -/
structure BuiltQuery where
  sql : String
  countSql : String
  args : List String
deriving DecidableEq

/-- Mirrors the query-string assembly of apiHandlerMariaDB. -/
def buildHolderQuery (q : QueryParams) : BuiltQuery :=
  { sql := holderSelectColumns ++ whereClause q ++ orderClause q.sort ++ limitClause q
    countSql := "SELECT COUNT(*) FROM holder" ++ whereClause q
    args := holderArgs q }

/-! ### The semantics of executing the assembled SQL over the store -/

/-- One row satisfies the WHERE clause: amount > 0, and the two optional
exact-match predicates when supplied. -/
def condMatches (q : QueryParams) (r : Holder) : Bool :=
  decide (0 < r.amount)
    && (q.owner == "" || r.owner == q.owner)
    && (q.mint_address == "" || r.mint_address == q.mint_address)

/-- Resolution of an ORDER BY identifier against the columns of the holder
table; an identifier naming no column makes the statement fail. -/
def colCmp (col : String) : Option (Holder → Holder → Ordering) :=
  match col with
  | "id" => some (fun a b => compare a.id b.id)
  | "mint_address" => some (fun a b => compare a.mint_address b.mint_address)
  | "pubkey" => some (fun a b => compare a.pubkey b.pubkey)
  | "lamports" => some (fun a b => compare a.lamports b.lamports)
  | "is_native" => some (fun a b =>
      compare (if a.is_native then (1 : Nat) else 0) (if b.is_native then (1 : Nat) else 0))
  | "owner" => some (fun a b => compare a.owner b.owner)
  | "state" => some (fun a b => compare a.state b.state)
  | "decimals" => some (fun a b => compare a.decimals b.decimals)
  | "amount" => some (fun a b => compare a.amount b.amount)
  | "ui_amount" => some (fun a b => compare a.ui_amount b.ui_amount)
  | "ui_amount_string" => some (fun a b => compare a.ui_amount_string b.ui_amount_string)
  | "created_at" => some (fun a b => compare a.created_at b.created_at)
  | "updated_at" => some (fun a b => compare a.updated_at b.updated_at)
  | _ => none

/-- The filtered rows in the order the SELECT yields them: table order
without an ORDER BY, sorted by the named column otherwise; an unknown column
is an SQL error. -/
def sortedRows (st : Store) (q : QueryParams) : Except String (List Holder) :=
  if q.sort == "" then .ok (st.filter (condMatches q))
  else
    match colCmp (sortColumn q.sort) with
    | none => .error ("Unknown column " ++ sortColumn q.sort ++ " in order clause")
    | some cmp =>
      if sortDesc q.sort then
        .ok ((st.filter (condMatches q)).insertionSort (fun a b => cmp b a ≠ Ordering.gt))
      else
        .ok ((st.filter (condMatches q)).insertionSort (fun a b => cmp a b ≠ Ordering.gt))

/-- The successful JSON envelope of the handler: the page slice, the total
computed by the COUNT statement over the same WHERE clause, and the echoed
page/limit. -/
structure HolderQueryResult where
  rows : List Holder
  total : Nat
  page : Int
  limit : Int
deriving DecidableEq

/-- Mirrors the execution of apiHandlerMariaDB over the store: COUNT with
the filter conds, SELECT with the same conds plus ORDER BY and
LIMIT/OFFSET.  A wrapped-negative offset renders as OFFSET with a negative
numeral, which the database rejects as a syntax error before resolving
columns, so the request fails. -/
def runHolderQuery (st : Store) (q : QueryParams) : Except String HolderQueryResult :=
  if queryOffset q < 0 then
    .error "You have an error in your SQL syntax near OFFSET"
  else
    match sortedRows st q with
    | .error e => .error e
    | .ok rows =>
      .ok { rows := (rows.drop (queryOffset q).toNat).take (effLimit q).toNat
            total := (st.filter (condMatches q)).length
            page := effPage q
            limit := effLimit q }

/-! ## The sync pass: fetchAndStoreData (main.go lines 1209-1311) -/

/-- A parsed candidate whose individual upsert fails; the failure condition
of upsertHolderMariaDB depends only on the mint address and the item. -/
def upsertFails (mint : String) (item : ResultItem) : Bool :=
  mint == "" || item.pubkey == ""

/-- A raw observation the batch loop actually writes: it carries the
"account" type discriminator (line 1294) and its upsert succeeds. -/
def eligible (mint : String) (item : ResultItem) : Bool :=
  item.account.data.parsed.type == "account" && !upsertFails mint item

/-- The batch loop of lines 1291-1304: every item is attempted; non-account
items and items whose upsert fails are counted as skipped and do not touch
the store; the rest are upserted in order.  Returns the final store and the
(upserted, skipped) counters. -/
def processBatch (now : Nat) (mint : String) : List ResultItem → Store → Store × Nat × Nat
  | [], st => (st, 0, 0)
  | item :: rest, st =>
    if item.account.data.parsed.type != "account" then
      let r := processBatch now mint rest st
      (r.1, r.2.1, r.2.2 + 1)
    else
      match upsertHolderMariaDB now st mint item with
      | .error _ =>
        let r := processBatch now mint rest st
        (r.1, r.2.1, r.2.2 + 1)
      | .ok st2 =>
        let r := processBatch now mint rest st2
        (r.1, r.2.1 + 1, r.2.2)

/-- The store after a batch (the committed transaction). -/
def applyBatch (now : Nat) (mint : String) (items : List ResultItem) (st : Store) : Store :=
  (processBatch now mint items st).1

/-- Outcome of one fetchAndStoreData call: the store after the call, whether
a storage transaction was begun (line 1280 is reached), and the counters the
function logs. -/
structure SyncOutcome where
  store : Store
  txOpened : Bool
  upserted : Nat
  skipped : Nat
deriving DecidableEq

/-- Mirrors fetchAndStoreData.  `resp = none` models any fetch failure
before a decoded envelope exists (transport error, non-200 status, malformed
body); an envelope with a service error, and a successful envelope with zero
results, both return before the transaction is begun.  Otherwise the whole
batch runs inside one transaction whose commit yields the returned store. -/
def fetchAndStoreData (now : Nat) (mint : String) (resp : Option RPCResponse) (st : Store) :
    SyncOutcome :=
  if mint == "" then { store := st, txOpened := false, upserted := 0, skipped := 0 }
  else
    match resp with
    | none => { store := st, txOpened := false, upserted := 0, skipped := 0 }
    | some r =>
      match r.error with
      | some _ => { store := st, txOpened := false, upserted := 0, skipped := 0 }
      | none =>
        if r.result.length == 0 then
          { store := st, txOpened := false, upserted := 0, skipped := 0 }
        else
          let b := processBatch now mint r.result st
          { store := b.1, txOpened := true, upserted := b.2.1, skipped := b.2.2 }

/-! ## Auxiliary definitions used by the theorems -/

/-- The shape of the SELECT statement as a function of the emptiness of the
two filter parameters, the raw sort text, and the two clamped pagination
integers: the filter VALUES do not occur in it.  Used to state that the
query text depends on the request only through these five pieces of data. -/
def holderSqlShape (hasOwner hasMint : Bool) (sort : String) (lim off : Int) : String :=
  holderSelectColumns ++
    (" WHERE " ++ String.intercalate " AND "
      (["amount > 0"] ++ (if hasOwner then ["owner = ?"] else [])
        ++ (if hasMint then ["mint_address = ?"] else []))) ++
    orderClause sort ++ (" LIMIT " ++ intToStr lim ++ " OFFSET " ++ intToStr off)

/-- Erase the updated_at timestamp of a row, for comparing stores up to
timestamps. -/
def scrub (r : Holder) : Holder := { r with updated_at := 0 }

/-- Erase every updated_at timestamp of a store. -/
def scrubStore (st : Store) : Store := st.map scrub

/-- Rows related across the two passes of a repeated sync: equal except that
the left row's timestamp may have been advanced to `n2`. -/
def passRel (n2 : Nat) (r r1 : Holder) : Prop :=
  scrub r = scrub r1 ∧ (r.updated_at = r1.updated_at ∨ r.updated_at = n2)

/-- The row carries exactly the mutable field values of the observation. -/
def itemAgrees (item : ResultItem) (r : Holder) : Prop :=
  r.lamports = item.account.lamports ∧
  r.is_native = item.account.data.parsed.info.isNative ∧
  r.owner = item.account.data.parsed.info.owner ∧
  r.state = item.account.data.parsed.info.state ∧
  r.decimals = item.account.data.parsed.info.tokenAmount.decimals ∧
  r.amount = item.account.data.parsed.info.tokenAmount.amount ∧
  r.ui_amount = item.account.data.parsed.info.tokenAmount.uiAmount ∧
  r.ui_amount_string = item.account.data.parsed.info.tokenAmount.uiAmountString

/-! ## Concrete inputs used by counterexamples and witnesses -/

/-- A well-formed holder observation. -/
def demoItem : ResultItem :=
  { pubkey := "PK1"
    account :=
      { lamports := 2039280
        data := { parsed := { info :=
          { isNative := false, owner := "OwnerA", state := "Frozen",
            tokenAmount := { amount := 5, decimals := 6, uiAmount := 5,
                             uiAmountString := "0.000005" } }, type := "account" } }
        owner := "TokenProgram" } }

/-- An observation whose state field is not one of the three enum values. -/
def bogusItem : ResultItem :=
  { pubkey := "PK1"
    account :=
      { lamports := 0
        data := { parsed := { info :=
          { isNative := false, owner := "OwnerA", state := "Bogus",
            tokenAmount := { amount := 5, decimals := 6, uiAmount := 5,
                             uiAmountString := "5" } }, type := "account" } }
        owner := "TokenProgram" } }

/-- The row the sync pipeline persists for `bogusItem` at time 5. -/
def bogusRow : Holder :=
  { id := 1, mint_address := "MintA", pubkey := "PK1", lamports := 0, is_native := false,
    owner := "OwnerA", state := "Bogus", decimals := 6, amount := 5, ui_amount := 5,
    ui_amount_string := "5", created_at := 5, updated_at := 5 }

/-- An account-typed observation whose upsert fails (empty pubkey). -/
def failItem : ResultItem :=
  { pubkey := ""
    account :=
      { lamports := 7
        data := { parsed := { info :=
          { isNative := false, owner := "OwnerB", state := "Initialized",
            tokenAmount := { amount := 3, decimals := 6, uiAmount := 3,
                             uiAmountString := "3" } }, type := "account" } }
        owner := "TokenProgram" } }

/-- A stored row in state Frozen with a positive amount. -/
def frozenRow : Holder :=
  { id := 1, mint_address := "A", pubkey := "PK1", lamports := 0, is_native := false,
    owner := "O1", state := "Frozen", decimals := 6, amount := 1, ui_amount := 1,
    ui_amount_string := "1", created_at := 0, updated_at := 0 }

/-- A stored row whose amount is zero. -/
def zeroRow : Holder :=
  { id := 2, mint_address := "A", pubkey := "PK2", lamports := 0, is_native := false,
    owner := "O2", state := "Initialized", decimals := 6, amount := 0, ui_amount := 0,
    ui_amount_string := "0", created_at := 0, updated_at := 0 }

/-- A request whose sort parameter is free-form attacker text. -/
def injectionReq : QueryParams :=
  { page := "", limit := "", owner := "", mint_address := "",
    sort := "amount; DROP TABLE holder; --", state := "" }

/-- A request that filters by state, which the handler does not support. -/
def stateFilterReq : QueryParams :=
  { page := "", limit := "", owner := "", mint_address := "", sort := "",
    state := "Initialized" }

/-- A request sorting by an identifier that names no column. -/
def badSortReq : QueryParams :=
  { page := "", limit := "", owner := "", mint_address := "",
    sort := "does_not_exist", state := "" }

/-- A request with out-of-range pagination values. -/
def clampReq : QueryParams :=
  { page := "0", limit := "5000", owner := "", mint_address := "", sort := "", state := "" }

/-- A request whose page (2^62) makes the 64-bit offset product wrap
negative. -/
def overflowReq : QueryParams :=
  { page := "4611686018427387904", limit := "1000", owner := "", mint_address := "",
    sort := "", state := "" }

/-- A plain filtered request. -/
def ownerReq : QueryParams :=
  { page := "", limit := "", owner := "O1", mint_address := "A", sort := "", state := "" }

/-! ## Helper lemmas about the query engine -/

theorem condMatches_iff (q : QueryParams) (r : Holder) :
    condMatches q r = true ↔
      0 < r.amount ∧ (q.owner = "" ∨ r.owner = q.owner)
        ∧ (q.mint_address = "" ∨ r.mint_address = q.mint_address) := by
  simp [condMatches, Bool.and_eq_true, Bool.or_eq_true, decide_eq_true_eq, beq_iff_eq,
    and_assoc]

theorem sortedRows_mem (st : Store) (q : QueryParams) (rows : List Holder)
    (h : sortedRows st q = .ok rows) :
    ∀ r ∈ rows, r ∈ st.filter (condMatches q) := by
  intro r hr
  unfold sortedRows at h
  split at h
  · cases h
    exact hr
  · split at h
    · simp at h
    · split at h
      · cases h
        exact (List.perm_insertionSort _ _).mem_iff.mp hr
      · cases h
        exact (List.perm_insertionSort _ _).mem_iff.mp hr

theorem runHolderQuery_ok_inv (st : Store) (q : QueryParams) (res : HolderQueryResult)
    (h : runHolderQuery st q = .ok res) :
    0 ≤ queryOffset q ∧
    ∃ rows, sortedRows st q = .ok rows ∧
      res = { rows := (rows.drop (queryOffset q).toNat).take (effLimit q).toNat
              total := (st.filter (condMatches q)).length
              page := effPage q
              limit := effLimit q } := by
  unfold runHolderQuery at h
  split at h
  · simp at h
  · rename_i hoff
    refine ⟨by omega, ?_⟩
    cases hs : sortedRows st q with
    | error e => rw [hs] at h; simp at h
    | ok rows =>
      rw [hs] at h
      cases h
      exact ⟨rows, rfl, rfl⟩

theorem runHolderQuery_rows_mem (st : Store) (q : QueryParams) (res : HolderQueryResult)
    (h : runHolderQuery st q = .ok res) :
    ∀ r ∈ res.rows, r ∈ st.filter (condMatches q) := by
  obtain ⟨_, rows, hs, hres⟩ := runHolderQuery_ok_inv st q res h
  subst hres
  intro r hr
  exact sortedRows_mem st q rows hs r (List.drop_subset _ _ (List.take_subset _ _ hr))

theorem runHolderQuery_nosort (st : Store) (q : QueryParams) (h : q.sort = "")
    (hoff : 0 ≤ queryOffset q) :
    runHolderQuery st q =
      .ok { rows := ((st.filter (condMatches q)).drop (queryOffset q).toNat).take
                      (effLimit q).toNat
            total := (st.filter (condMatches q)).length
            page := effPage q
            limit := effLimit q } := by
  unfold runHolderQuery sortedRows
  rw [if_neg (by omega), if_pos (by simp [h])]

theorem runHolderQuery_badSort (st : Store) (q : QueryParams) (h : q.sort ≠ "")
    (hc : colCmp (sortColumn q.sort) = none) :
    ∃ e, runHolderQuery st q = .error e := by
  by_cases hoff : queryOffset q < 0
  · exact ⟨_, by unfold runHolderQuery; rw [if_pos hoff]⟩
  · refine ⟨"Unknown column " ++ sortColumn q.sort ++ " in order clause", ?_⟩
    unfold runHolderQuery sortedRows
    rw [if_neg hoff, if_neg (by simp [h]), hc]

/-! ## C1: request inputs reaching the SQL text -/

/-- C1, counterexample.  The claim says every request-derived value reaches
the SQL only as a bound parameter or an identifier checked against a fixed
allow-list, with free-form request text never concatenated into the query
string.  But the handler concatenates the raw sort parameter into the
statement: for `injectionReq`, whose sort value names no column of the
holder table, the free-form text appears verbatim in the query string. -/
theorem C1_counterexample :
    (buildHolderQuery injectionReq).sql =
      "SELECT id, mint_address, pubkey, lamports, is_native, owner, state, decimals, amount, ui_amount, ui_amount_string, created_at, updated_at FROM holder WHERE amount > 0 ORDER BY amount; DROP TABLE holder; -- ASC LIMIT 10 OFFSET 0"
    ∧ colCmp (sortColumn injectionReq.sort) = none := ⟨by decide, by rfl⟩

/-- C1, amended.  The owner and mint_address filter values reach the SQL
only as bind arguments: the statement text is a function of the emptiness of
those two parameters, the raw sort text and the two clamped pagination
integers alone (so the filter values never appear in it), and the args list
carries exactly the supplied filter values.  The sort field, however, is
concatenated into the text verbatim (as `holderSqlShape` shows), with no
allow-list check. -/
theorem C1_filters_bound_sort_concatenated (q : QueryParams) :
    (buildHolderQuery q).sql =
      holderSqlShape (!(q.owner == "")) (!(q.mint_address == "")) q.sort
        (effLimit q) (queryOffset q)
    ∧ (buildHolderQuery q).args =
      (if q.owner == "" then [] else [q.owner])
        ++ (if q.mint_address == "" then [] else [q.mint_address]) := by
  constructor
  · cases ho : q.owner == "" <;> cases hm : q.mint_address == "" <;>
      simp [buildHolderQuery, holderSqlShape, whereClause, holderConds, limitClause, ho, hm]
  · rfl

/-! ## C2: enum validation on the write paths -/

/-- C2, counterexample.  The claim says every write path rejects a state
outside the enum before persistence.  But the sync upsert path performs no
state validation: upserting `bogusItem`, whose state "Bogus" the explicit
endpoint validator rejects, succeeds and persists the row verbatim. -/
theorem C2_counterexample :
    holderUpdateValidate "Bogus" = false ∧
    upsertHolderMariaDB 5 [] "MintA" bogusItem = .ok [bogusRow] ∧
    bogusRow.state = "Bogus" := ⟨rfl, rfl, rfl⟩

/-- C2, amended.  Only the explicit state-mutation endpoint validates the
requested state against the 3-value enum before touching storage: a request
with any other state value mutates nothing and is rejected with a
validation error.  The sync upsert persists the observed state string
without validation. -/
theorem C2_explicit_path_validates (now : Nat) (st : Store) (mint pubkey s : String)
    (h : holderUpdateValidate s = false) :
    handleUpdateHolderState now st mint pubkey s = (st, .validationError) := by
  simp [handleUpdateHolderState, h]

theorem C2_explicit_path_validates_witness :
    handleUpdateHolderState 3 [frozenRow] "A" "PK1" "Bogus" =
      ([frozenRow], .validationError) :=
  C2_explicit_path_validates 3 [frozenRow] "A" "PK1" "Bogus" (by decide)

/-! ## C3: the filter allow-list -/

/-- C3, counterexample.  The claim says the allow-listed filters are
assetAddress, owner and state, and that filtering by state returns only rows
with that state.  But the handler never reads the state key: a query with
state=Initialized returns the stored Frozen row. -/
theorem C3_counterexample :
    stateFilterReq.state = "Initialized" ∧ frozenRow.state = "Frozen" ∧
    runHolderQuery [frozenRow] stateFilterReq =
      .ok { rows := [frozenRow], total := 1, page := 1, limit := 10 } := ⟨rfl, rfl, rfl⟩

/-- C3, amended.  The exact-match filter allow-list is owner and
mint_address (the asset address) only: every returned row satisfies those
supplied predicates exactly, and the state key - like every key outside the
allow-list - is ignored rather than rejected (the result does not depend on
it). -/
theorem C3_filter_allowlist (st : Store) (q : QueryParams) (res : HolderQueryResult)
    (h : runHolderQuery st q = .ok res) :
    (∀ r ∈ res.rows,
      (q.owner ≠ "" → r.owner = q.owner) ∧
      (q.mint_address ≠ "" → r.mint_address = q.mint_address)) ∧
    (∀ s2 : String,
      runHolderQuery st
        { page := q.page, limit := q.limit, owner := q.owner,
          mint_address := q.mint_address, sort := q.sort, state := s2 } =
      runHolderQuery st q) := by
  constructor
  · intro r hr
    have hm := runHolderQuery_rows_mem st q res h r hr
    have hc := (condMatches_iff q r).mp (List.mem_filter.mp hm).2
    exact ⟨fun ho => hc.2.1.resolve_left ho, fun hm2 => hc.2.2.resolve_left hm2⟩
  · intro s2
    cases q
    rfl

theorem C3_filter_allowlist_witness :
    (∀ r ∈ (HolderQueryResult.mk [frozenRow] 1 1 10).rows,
      (ownerReq.owner ≠ "" → r.owner = ownerReq.owner) ∧
      (ownerReq.mint_address ≠ "" → r.mint_address = ownerReq.mint_address)) ∧
    (∀ s2 : String,
      runHolderQuery [frozenRow]
        { page := ownerReq.page, limit := ownerReq.limit, owner := ownerReq.owner,
          mint_address := ownerReq.mint_address, sort := ownerReq.sort, state := s2 } =
      runHolderQuery [frozenRow] ownerReq) :=
  C3_filter_allowlist [frozenRow] ownerReq (HolderQueryResult.mk [frozenRow] 1 1 10) rfl

/-! ## C4: unknown sort fields -/

/-- C4, counterexample.  The claim says a query whose sort names a field
outside the allow-list succeeds with the stable default order.  But there is
no allow-list: the sort text is concatenated into the statement, and a value
naming no column of the holder table makes the query fail with an error
instead of succeeding. -/
theorem C4_counterexample :
    colCmp (sortColumn badSortReq.sort) = none ∧
    runHolderQuery [] badSortReq =
      .error "Unknown column does_not_exist in order clause" := ⟨rfl, rfl⟩

/-- C4, amended.  An empty sort parameter yields the default order (the
filtered rows in table order, sliced by the pagination window) whenever the
64-bit offset arithmetic has not wrapped negative; a nonempty sort
parameter that names no column of the holder table makes the query fail
with an error rather than falling back to the default order. -/
theorem C4_unknown_sort_errors (st : Store) (q : QueryParams) :
    (q.sort = "" → 0 ≤ queryOffset q →
      runHolderQuery st q =
        .ok { rows := ((st.filter (condMatches q)).drop (queryOffset q).toNat).take
                        (effLimit q).toNat
              total := (st.filter (condMatches q)).length
              page := effPage q
              limit := effLimit q }) ∧
    (q.sort ≠ "" → colCmp (sortColumn q.sort) = none →
      ∃ e, runHolderQuery st q = .error e) :=
  ⟨fun h hoff => runHolderQuery_nosort st q h hoff,
   fun h hc => runHolderQuery_badSort st q h hc⟩

theorem C4_unknown_sort_errors_witness :
    runHolderQuery [frozenRow] stateFilterReq =
      .ok { rows := ((([frozenRow] : Store).filter (condMatches stateFilterReq)).drop
                        (queryOffset stateFilterReq).toNat).take (effLimit stateFilterReq).toNat
            total := (([frozenRow] : Store).filter (condMatches stateFilterReq)).length
            page := effPage stateFilterReq
            limit := effLimit stateFilterReq } ∧
    ∃ e, runHolderQuery [] badSortReq = .error e :=
  ⟨(C4_unknown_sort_errors [frozenRow] stateFilterReq).1 rfl (by decide),
   (C4_unknown_sort_errors [] badSortReq).2 (by decide) rfl⟩

/-! ## C5: pagination -/

/-- C5, counterexample.  The claim says out-of-range pagination values are
clamped, never failing the request, and the slice starts at
(page - 1) * limit.  But the offset is computed in Go's wrapping 64-bit int
arithmetic: for page = 2^62 (which strconv.Atoi parses exactly) and
limit = 1000 the product wraps to -1000, the statement renders
OFFSET -1000, and the request fails with an SQL error instead of being
clamped. -/
theorem C5_counterexample :
    effPage overflowReq = 4611686018427387904 ∧
    effLimit overflowReq = 1000 ∧
    queryOffset overflowReq = -1000 ∧
    (buildHolderQuery overflowReq).sql =
      "SELECT id, mint_address, pubkey, lamports, is_native, owner, state, decimals, amount, ui_amount, ui_amount_string, created_at, updated_at FROM holder WHERE amount > 0 LIMIT 1000 OFFSET -1000" ∧
    runHolderQuery [] overflowReq =
      .error "You have an error in your SQL syntax near OFFSET" :=
  ⟨by decide, by decide, by decide, by decide, by rfl⟩

/-- C5, amended.  page is 1-indexed (forced to at least 1) and the
effective limit always lies in the fixed bound [1, 1000] whatever the raw
value was; the offset is the wrapping 64-bit product (page - 1) * limit,
which equals the exact product whenever that product fits in int64; and
every successful request has a nonnegative offset with the returned slice
of the ordered rows starting there.  (A page large enough to wrap the
product negative fails the request instead - the counterexample.) -/
theorem C5_pagination (q : QueryParams) (st : Store) (res : HolderQueryResult)
    (h : runHolderQuery st q = .ok res) :
    1 ≤ effLimit q ∧ effLimit q ≤ 1000 ∧ 1 ≤ effPage q ∧
    queryOffset q = wrap64 ((effPage q - 1) * effLimit q) ∧
    ((effPage q - 1) * effLimit q ≤ int64Bound - 1 →
      queryOffset q = (effPage q - 1) * effLimit q) ∧
    0 ≤ queryOffset q ∧
    ∃ rows, sortedRows st q = .ok rows ∧
      res.rows = (rows.drop (queryOffset q).toNat).take (effLimit q).toNat ∧
      res.page = effPage q ∧ res.limit = effLimit q := by
  obtain ⟨hoff, rows, hs, hres⟩ := runHolderQuery_ok_inv st q res h
  have hl1 : 1 ≤ effLimit q := by unfold effLimit; split_ifs <;> omega
  have hp1 : 1 ≤ effPage q := by unfold effPage; split_ifs <;> omega
  refine ⟨hl1, by unfold effLimit; split_ifs <;> omega, hp1, rfl, ?_, hoff, ?_⟩
  · intro hsmall
    have hnn : 0 ≤ (effPage q - 1) * effLimit q := mul_nonneg (by omega) (by omega)
    unfold queryOffset wrap64
    unfold int64Bound at hsmall ⊢
    unfold uint64Size
    rw [Int.emod_eq_of_lt hnn (by omega)]
    rw [if_pos (by omega)]
  · subst hres
    exact ⟨rows, hs, rfl, rfl, rfl⟩

theorem C5_pagination_witness :
    1 ≤ effLimit clampReq ∧ effLimit clampReq ≤ 1000 ∧ 1 ≤ effPage clampReq ∧
    queryOffset clampReq = wrap64 ((effPage clampReq - 1) * effLimit clampReq) ∧
    ((effPage clampReq - 1) * effLimit clampReq ≤ int64Bound - 1 →
      queryOffset clampReq = (effPage clampReq - 1) * effLimit clampReq) ∧
    0 ≤ queryOffset clampReq ∧
    ∃ rows, sortedRows [frozenRow] clampReq = .ok rows ∧
      (HolderQueryResult.mk [frozenRow] 1 1 1000).rows =
        (rows.drop (queryOffset clampReq).toNat).take (effLimit clampReq).toNat ∧
      (HolderQueryResult.mk [frozenRow] 1 1 1000).page = effPage clampReq ∧
      (HolderQueryResult.mk [frozenRow] 1 1 1000).limit = effLimit clampReq :=
  C5_pagination clampReq [frozenRow] (HolderQueryResult.mk [frozenRow] 1 1 1000) rfl

/-! ## C9: the implicit amount > 0 predicate -/

/-- C9.  Every holder query result is restricted by the implicit predicate
amount > 0: every returned row has a positive amount, the reported total
counts exactly the rows matching the same conds (so rows with a
non-positive amount never contribute to it), whatever the supplied filters,
sort, page and limit were. -/
theorem C9_amount_filter (st : Store) (q : QueryParams) (res : HolderQueryResult)
    (h : runHolderQuery st q = .ok res) :
    (∀ r ∈ res.rows, 0 < r.amount) ∧
    res.total = (st.filter (condMatches q)).length ∧
    (∀ r ∈ st, r.amount ≤ 0 → r ∉ st.filter (condMatches q)) := by
  refine ⟨?_, ?_, ?_⟩
  · intro r hr
    exact ((condMatches_iff q r).mp
      (List.mem_filter.mp (runHolderQuery_rows_mem st q res h r hr)).2).1
  · obtain ⟨_, rows, hs, hres⟩ := runHolderQuery_ok_inv st q res h
    subst hres
    rfl
  · intro r _ hneg hmem
    exact absurd ((condMatches_iff q r).mp (List.mem_filter.mp hmem).2).1 (by omega)

theorem C9_amount_filter_witness :
    (∀ r ∈ (HolderQueryResult.mk [frozenRow] 1 1 10).rows, 0 < r.amount) ∧
    (HolderQueryResult.mk [frozenRow] 1 1 10).total =
      (([frozenRow, zeroRow] : Store).filter (condMatches stateFilterReq)).length ∧
    (∀ r ∈ ([frozenRow, zeroRow] : Store), r.amount ≤ 0 →
      r ∉ ([frozenRow, zeroRow] : Store).filter (condMatches stateFilterReq)) :=
  C9_amount_filter [frozenRow, zeroRow] stateFilterReq
    (HolderQueryResult.mk [frozenRow] 1 1 10) rfl

/-! ## C10: empty fetch results leave the store untouched -/

/-- C10.  A successful envelope with zero results makes the sync pass for
that asset return before a storage transaction is begun: no transaction is
opened and the store is unchanged. -/
theorem C10_empty_result_no_tx (now : Nat) (mint : String) (r : RPCResponse) (st : Store)
    (hmint : mint ≠ "") (herr : r.error = none) (hres : r.result = []) :
    fetchAndStoreData now mint (some r) st =
      { store := st, txOpened := false, upserted := 0, skipped := 0 } := by
  have hb : (mint == "") = false := by simp [hmint]
  simp [fetchAndStoreData, hb, herr, hres]

/-! ## C6: the explicit setState path -/

theorem keyMatches_iff (mint pubkey : String) (r : Holder) :
    keyMatches mint pubkey r = true ↔ r.mint_address = mint ∧ r.pubkey = pubkey := by
  simp [keyMatches]

/-- C6.  setState with a valid enum value: when no row matches the identity
(mint_address, pubkey), the result is NotFound (no record) and the store is
returned unchanged; when a row matches, the returned record is read back
from the updated store, carries the requested identity and state, and its
updated_at is advanced to the current clock. -/
theorem C6_setState (now : Nat) (st : Store) (mint pubkey s : String)
    (hv : holderUpdateValidate s = true) :
    (hasKey st mint pubkey = false →
      updateHolderState now st mint pubkey s = (st, none)) ∧
    (hasKey st mint pubkey = true →
      ∃ r, (updateHolderState now st mint pubkey s).2 = some r ∧
        r.mint_address = mint ∧ r.pubkey = pubkey ∧ r.state = s ∧ r.updated_at = now) := by
  constructor
  · intro h
    unfold updateHolderState
    rw [if_neg (by simp [h])]
  · intro h
    unfold updateHolderState
    rw [if_pos h]
    have hex : ∃ x ∈ st, keyMatches mint pubkey x = true := by
      unfold hasKey at h
      exact List.any_eq_true.mp h
    obtain ⟨x, hx, hkx⟩ := hex
    have hmem : (if keyMatches mint pubkey x then
        { x with state := s, updated_at := now } else x) ∈
        st.map (fun r => if keyMatches mint pubkey r then
          { r with state := s, updated_at := now } else r) :=
      List.mem_map_of_mem _ hx
    rw [if_pos hkx] at hmem
    have hsome : ((st.map (fun r => if keyMatches mint pubkey r then
        { r with state := s, updated_at := now } else r)).find?
          (keyMatches mint pubkey)).isSome := by
      rw [List.find?_isSome]
      exact ⟨_, hmem, hkx⟩
    obtain ⟨r, hr⟩ := Option.isSome_iff_exists.mp hsome
    have hkey := List.find?_some hr
    obtain ⟨x0, hx0, hgx0⟩ := List.mem_map.mp (List.mem_of_find?_eq_some hr)
    refine ⟨r, hr, ((keyMatches_iff mint pubkey r).mp hkey).1,
      ((keyMatches_iff mint pubkey r).mp hkey).2, ?_, ?_⟩ <;>
    · by_cases hc : keyMatches mint pubkey x0 = true
      · rw [if_pos hc] at hgx0
        rw [← hgx0]
      · rw [if_neg hc] at hgx0
        rw [← hgx0] at hkey
        exact absurd hkey hc

theorem C6_setState_witness :
    (hasKey [frozenRow] "A" "PK1" = false →
      updateHolderState 9 [frozenRow] "A" "PK1" "Initialized" = ([frozenRow], none)) ∧
    (hasKey [frozenRow] "A" "PK1" = true →
      ∃ r, (updateHolderState 9 [frozenRow] "A" "PK1" "Initialized").2 = some r ∧
        r.mint_address = "A" ∧ r.pubkey = "PK1" ∧ r.state = "Initialized" ∧
        r.updated_at = 9) :=
  C6_setState 9 [frozenRow] "A" "PK1" "Initialized" (by decide)

/-! ## C8: per-record failure isolation inside one batch -/

theorem upsert_fails_error (now : Nat) (st : Store) (mint : String) (item : ResultItem)
    (h : upsertFails mint item = true) :
    ∃ e, upsertHolderMariaDB now st mint item = .error e := by
  unfold upsertFails at h
  by_cases hm : (mint == "") = true
  · exact ⟨"mint address must not be empty", by unfold upsertHolderMariaDB; rw [if_pos hm]⟩
  · have hp : (item.pubkey == "") = true := by
      simp only [Bool.or_eq_true] at h
      rcases h with h1 | h2
      · exact absurd h1 hm
      · exact h2
    exact ⟨"pubkey must not be empty",
      by unfold upsertHolderMariaDB; rw [if_neg hm, if_pos hp]⟩

theorem upsert_ok_eq (now : Nat) (st : Store) (mint : String) (item : ResultItem)
    (h : upsertFails mint item = false) :
    upsertHolderMariaDB now st mint item = .ok (upsertEffect now st mint item) := by
  unfold upsertFails at h
  simp only [Bool.or_eq_false_iff] at h
  unfold upsertHolderMariaDB
  rw [if_neg (by simp [h.1]), if_neg (by simp [h.2])]

theorem applyBatch_nil (now : Nat) (mint : String) (st : Store) :
    applyBatch now mint [] st = st := rfl

theorem applyBatch_cons_skip (now : Nat) (mint : String) (item : ResultItem)
    (rest : List ResultItem) (st : Store)
    (h : (item.account.data.parsed.type == "account") = false) :
    applyBatch now mint (item :: rest) st = applyBatch now mint rest st := by
  unfold applyBatch
  simp only [processBatch]
  rw [if_pos (by simp [bne, h])]

theorem applyBatch_cons_fail (now : Nat) (mint : String) (item : ResultItem)
    (rest : List ResultItem) (st : Store) (e : String)
    (hty : (item.account.data.parsed.type == "account") = true)
    (he : upsertHolderMariaDB now st mint item = .error e) :
    applyBatch now mint (item :: rest) st = applyBatch now mint rest st := by
  unfold applyBatch
  simp only [processBatch]
  rw [if_neg (by simp [bne, hty]), he]

theorem applyBatch_cons_okk (now : Nat) (mint : String) (item : ResultItem)
    (rest : List ResultItem) (st st2 : Store)
    (hty : (item.account.data.parsed.type == "account") = true)
    (he : upsertHolderMariaDB now st mint item = .ok st2) :
    applyBatch now mint (item :: rest) st = applyBatch now mint rest st2 := by
  unfold applyBatch
  simp only [processBatch]
  rw [if_neg (by simp [bne, hty]), he]

theorem processBatch_counts (now : Nat) (mint : String) :
    ∀ (items : List ResultItem) (st : Store),
      (processBatch now mint items st).2.1 + (processBatch now mint items st).2.2 =
        items.length := by
  intro items
  induction items with
  | nil => intro st; rfl
  | cons item rest ih =>
    intro st
    simp only [processBatch, List.length_cons]
    split
    · have := ih st
      dsimp only
      omega
    · split
      · have := ih st
        dsimp only
        omega
      · rename_i st2 heq
        have := ih st2
        dsimp only
        omega

theorem applyBatch_skip (now : Nat) (mint : String) (item : ResultItem)
    (h : eligible mint item = false) :
    ∀ (pre post : List ResultItem) (st : Store),
      applyBatch now mint (pre ++ item :: post) st = applyBatch now mint (pre ++ post) st := by
  intro pre
  induction pre with
  | nil =>
    intro post st
    simp only [List.nil_append]
    by_cases hty : (item.account.data.parsed.type == "account") = true
    · have hfail : upsertFails mint item = true := by
        unfold eligible at h
        rw [hty] at h
        simpa using h
      obtain ⟨e, he⟩ := upsert_fails_error now st mint item hfail
      exact applyBatch_cons_fail now mint item post st e hty he
    · have hty2 : (item.account.data.parsed.type == "account") = false := by
        revert hty
        cases item.account.data.parsed.type == "account" <;> simp
      exact applyBatch_cons_skip now mint item post st hty2
  | cons p ps ih =>
    intro post st
    simp only [List.cons_append]
    by_cases hty : (p.account.data.parsed.type == "account") = true
    · cases hup : upsertHolderMariaDB now st mint p with
      | error e =>
        rw [applyBatch_cons_fail now mint p _ st e hty hup,
          applyBatch_cons_fail now mint p _ st e hty hup]
        exact ih post st
      | ok st2 =>
        rw [applyBatch_cons_okk now mint p _ st st2 hty hup,
          applyBatch_cons_okk now mint p _ st st2 hty hup]
        exact ih post st2
    · have hty2 : (p.account.data.parsed.type == "account") = false := by
        revert hty
        cases p.account.data.parsed.type == "account" <;> simp
      rw [applyBatch_cons_skip now mint p _ st hty2,
        applyBatch_cons_skip now mint p _ st hty2]
      exact ih post st

/-- C8.  Within one per-asset batch, every candidate is attempted: the
upserted and skipped counters always sum to the batch size; and a parsed
(account-typed) candidate whose individual upsert fails is isolated:
deleting it from the batch yields the same committed store, so every other
candidate in the batch still takes effect in the single transaction around
the loop. -/
theorem C8_batch_isolation (now : Nat) (mint : String) (item : ResultItem)
    (hacct : item.account.data.parsed.type = "account")
    (hfail : upsertFails mint item = true) :
    (∀ (pre post : List ResultItem) (st : Store),
        applyBatch now mint (pre ++ item :: post) st =
          applyBatch now mint (pre ++ post) st) ∧
    ∀ (items : List ResultItem) (st : Store),
      (processBatch now mint items st).2.1 + (processBatch now mint items st).2.2 =
        items.length := by
  have helig : eligible mint item = false := by
    simp [eligible, hfail]
  exact ⟨applyBatch_skip now mint item helig, processBatch_counts now mint⟩

theorem C8_batch_isolation_witness :
    (∀ (pre post : List ResultItem) (st : Store),
        applyBatch 1 "M" (pre ++ failItem :: post) st = applyBatch 1 "M" (pre ++ post) st) ∧
    ∀ (items : List ResultItem) (st : Store),
      (processBatch 1 "M" items st).2.1 + (processBatch 1 "M" items st).2.2 =
        items.length :=
  C8_batch_isolation 1 "M" failItem rfl (by decide)

/-! ## C7: idempotence of a repeated sync pass -/

theorem bool_eq_false (b : Bool) (h : ¬ b = true) : b = false := by
  cases b
  · rfl
  · exact absurd rfl h

theorem eligible_parts (mint : String) (i : ResultItem) (h : eligible mint i = true) :
    (i.account.data.parsed.type == "account") = true ∧ upsertFails mint i = false := by
  unfold eligible at h
  simp only [Bool.and_eq_true] at h
  refine ⟨h.1, ?_⟩
  simpa using h.2

theorem upsert_ok_inv (now : Nat) (st : Store) (mint : String) (item : ResultItem)
    (st2 : Store) (h : upsertHolderMariaDB now st mint item = .ok st2) :
    st2 = upsertEffect now st mint item := by
  unfold upsertHolderMariaDB at h
  split at h
  · simp at h
  · split at h
    · simp at h
    · cases h
      rfl

theorem keyMatches_applyItemFields (mint pubkey : String) (now : Nat) (item : ResultItem)
    (r : Holder) :
    keyMatches mint pubkey (applyItemFields now item r) = keyMatches mint pubkey r := rfl

theorem keyMatches_scrub (mint pubkey : String) (r : Holder) :
    keyMatches mint pubkey (scrub r) = keyMatches mint pubkey r := rfl

theorem keyMatches_eq_of_scrub_eq (mint pubkey : String) (r r1 : Holder)
    (h : scrub r = scrub r1) :
    keyMatches mint pubkey r = keyMatches mint pubkey r1 := by
  rw [← keyMatches_scrub mint pubkey r, h, keyMatches_scrub]

theorem itemAgrees_of_scrub_eq (item : ResultItem) (r r1 : Holder)
    (h : scrub r = scrub r1) (ha : itemAgrees item r1) : itemAgrees item r := by
  have hl := congrArg Holder.lamports h
  have hn := congrArg Holder.is_native h
  have ho := congrArg Holder.owner h
  have hs := congrArg Holder.state h
  have hd := congrArg Holder.decimals h
  have ham := congrArg Holder.amount h
  have hu := congrArg Holder.ui_amount h
  have hus := congrArg Holder.ui_amount_string h
  obtain ⟨a1, a2, a3, a4, a5, a6, a7, a8⟩ := ha
  exact ⟨hl.trans a1, hn.trans a2, ho.trans a3, hs.trans a4, hd.trans a5, ham.trans a6,
    hu.trans a7, hus.trans a8⟩

theorem scrub_applyItemFields (now : Nat) (item : ResultItem) (r : Holder)
    (h : itemAgrees item r) : scrub (applyItemFields now item r) = scrub r := by
  cases r
  obtain ⟨h1, h2, h3, h4, h5, h6, h7, h8⟩ := h
  simp_all [scrub, applyItemFields]

theorem hasKey_upsertEffect_mono (now : Nat) (st : Store) (mint : String) (item : ResultItem)
    (m k : String) (h : hasKey st m k = true) :
    hasKey (upsertEffect now st mint item) m k = true := by
  unfold hasKey at h
  obtain ⟨r, hr, hkr⟩ := List.any_eq_true.mp h
  unfold upsertEffect hasKey
  split
  · refine List.any_eq_true.mpr ⟨(if keyMatches mint item.pubkey r then
      applyItemFields now item r else r), List.mem_map_of_mem _ hr, ?_⟩
    by_cases hc : keyMatches mint item.pubkey r = true
    · rw [if_pos hc, keyMatches_applyItemFields]
      exact hkr
    · rw [if_neg hc]
      exact hkr
  · exact List.any_eq_true.mpr ⟨r, List.mem_append_left _ hr, hkr⟩

theorem hasKey_upsertEffect_self (now : Nat) (st : Store) (mint : String) (item : ResultItem) :
    hasKey (upsertEffect now st mint item) mint item.pubkey = true := by
  unfold upsertEffect
  split
  · rename_i hc
    unfold hasKey at hc ⊢
    obtain ⟨r, hr, hkr⟩ := List.any_eq_true.mp hc
    refine List.any_eq_true.mpr ⟨_, List.mem_map_of_mem _ hr, ?_⟩
    rw [if_pos hkr, keyMatches_applyItemFields]
    exact hkr
  · unfold hasKey
    refine List.any_eq_true.mpr ⟨freshHolder now (nextId st) mint item,
      List.mem_append_right _ (by simp), ?_⟩
    simp [keyMatches, freshHolder]

theorem upsertEffect_mem_keyed (now : Nat) (st : Store) (mint : String) (item : ResultItem)
    (r : Holder) (hr : r ∈ upsertEffect now st mint item)
    (hk : keyMatches mint item.pubkey r = true) :
    itemAgrees item r ∧ r.updated_at = now := by
  unfold upsertEffect at hr
  split at hr
  · obtain ⟨r0, hr0, heq⟩ := List.mem_map.mp hr
    by_cases hc : keyMatches mint item.pubkey r0 = true
    · rw [if_pos hc] at heq
      subst heq
      exact ⟨⟨rfl, rfl, rfl, rfl, rfl, rfl, rfl, rfl⟩, rfl⟩
    · rw [if_neg hc] at heq
      subst heq
      exact absurd hk hc
  · rename_i hc
    rcases List.mem_append.mp hr with hmem | hmem
    · exfalso
      apply hc
      unfold hasKey
      exact List.any_eq_true.mpr ⟨r, hmem, hk⟩
    · simp only [List.mem_singleton] at hmem
      subst hmem
      exact ⟨⟨rfl, rfl, rfl, rfl, rfl, rfl, rfl, rfl⟩, rfl⟩

theorem upsertEffect_mem_ne (now : Nat) (st : Store) (mint : String) (item : ResultItem)
    (k : String) (r : Holder) (hne : item.pubkey ≠ k)
    (hr : r ∈ upsertEffect now st mint item)
    (hk : keyMatches mint k r = true) : r ∈ st := by
  unfold upsertEffect at hr
  split at hr
  · obtain ⟨r0, hr0, heq⟩ := List.mem_map.mp hr
    by_cases hc : keyMatches mint item.pubkey r0 = true
    · exfalso
      rw [if_pos hc] at heq
      have h1 := (keyMatches_iff mint item.pubkey r0).mp hc
      subst heq
      have h2 := (keyMatches_iff mint k _).mp hk
      apply hne
      rw [← h1.2]
      exact h2.2
    · rw [if_neg hc] at heq
      subst heq
      exact hr0
  · rcases List.mem_append.mp hr with hmem | hmem
    · exact hmem
    · exfalso
      simp only [List.mem_singleton] at hmem
      subst hmem
      have h2 := (keyMatches_iff mint k _).mp hk
      exact hne h2.2

theorem hasKey_applyBatch_mono (now : Nat) (mint m k : String) :
    ∀ (items : List ResultItem) (st : Store), hasKey st m k = true →
      hasKey (applyBatch now mint items st) m k = true := by
  intro items
  induction items with
  | nil => intro st h; exact h
  | cons item rest ih =>
    intro st h
    by_cases hty : (item.account.data.parsed.type == "account") = true
    · cases hup : upsertHolderMariaDB now st mint item with
      | error e =>
        rw [applyBatch_cons_fail now mint item rest st e hty hup]
        exact ih st h
      | ok st2 =>
        rw [applyBatch_cons_okk now mint item rest st st2 hty hup]
        have hst2 := upsert_ok_inv now st mint item st2 hup
        subst hst2
        exact ih _ (hasKey_upsertEffect_mono now st mint item m k h)
    · rw [applyBatch_cons_skip now mint item rest st (bool_eq_false _ hty)]
      exact ih st h

theorem hasKey_applyBatch_of_mem (now : Nat) (mint : String) :
    ∀ (items : List ResultItem) (st : Store) (i : ResultItem),
      i ∈ items → eligible mint i = true →
      hasKey (applyBatch now mint items st) mint i.pubkey = true := by
  intro items
  induction items with
  | nil => intro st i hi; exact absurd hi (List.not_mem_nil i)
  | cons j rest ih =>
    intro st i hi helig
    rcases List.mem_cons.mp hi with heq | hmem
    · subst heq
      obtain ⟨hty, hfail⟩ := eligible_parts mint i helig
      rw [applyBatch_cons_okk now mint i rest st (upsertEffect now st mint i) hty
        (upsert_ok_eq now st mint i hfail)]
      exact hasKey_applyBatch_mono now mint mint i.pubkey rest _
        (hasKey_upsertEffect_self now st mint i)
    · by_cases hty : (j.account.data.parsed.type == "account") = true
      · cases hup : upsertHolderMariaDB now st mint j with
        | error e =>
          rw [applyBatch_cons_fail now mint j rest st e hty hup]
          exact ih st i hmem helig
        | ok st2 =>
          rw [applyBatch_cons_okk now mint j rest st st2 hty hup]
          exact ih st2 i hmem helig
      · rw [applyBatch_cons_skip now mint j rest st (bool_eq_false _ hty)]
        exact ih st i hmem helig

theorem applyBatch_no_touch (now : Nat) (mint k : String) :
    ∀ (items : List ResultItem) (st : Store),
      (∀ j ∈ items, j.pubkey ≠ k) →
      ∀ r ∈ applyBatch now mint items st, keyMatches mint k r = true → r ∈ st := by
  intro items
  induction items with
  | nil => intro st _ r hr _; exact hr
  | cons j rest ih =>
    intro st hne r hr hk
    by_cases hty : (j.account.data.parsed.type == "account") = true
    · cases hup : upsertHolderMariaDB now st mint j with
      | error e =>
        rw [applyBatch_cons_fail now mint j rest st e hty hup] at hr
        exact ih st (fun x hx => hne x (List.mem_cons_of_mem j hx)) r hr hk
      | ok st2 =>
        rw [applyBatch_cons_okk now mint j rest st st2 hty hup] at hr
        have hr2 : r ∈ st2 := ih st2 (fun x hx => hne x (List.mem_cons_of_mem j hx)) r hr hk
        have hst2 := upsert_ok_inv now st mint j st2 hup
        subst hst2
        exact upsertEffect_mem_ne now st mint j k r (hne j (List.mem_cons_self j rest)) hr2 hk
    · rw [applyBatch_cons_skip now mint j rest st (bool_eq_false _ hty)] at hr
      exact ih st (fun x hx => hne x (List.mem_cons_of_mem j hx)) r hr hk

theorem applyBatch_last_write (now : Nat) (mint : String) :
    ∀ (items : List ResultItem) (st : Store) (i : ResultItem),
      i ∈ items → eligible mint i = true →
      (items.map (fun j => j.pubkey)).Nodup →
      ∀ r ∈ applyBatch now mint items st, keyMatches mint i.pubkey r = true →
        itemAgrees i r := by
  intro items
  induction items with
  | nil => intro st i hi; exact absurd hi (List.not_mem_nil i)
  | cons j rest ih =>
    intro st i hi helig hnodup r hr hk
    have hmap : (j.pubkey :: rest.map (fun x => x.pubkey)).Nodup := by
      simpa using hnodup
    have hnotin : j.pubkey ∉ rest.map (fun x => x.pubkey) := (List.nodup_cons.mp hmap).1
    have hnodup2 : (rest.map (fun x => x.pubkey)).Nodup := (List.nodup_cons.mp hmap).2
    rcases List.mem_cons.mp hi with heq | hmem
    · subst heq
      obtain ⟨hty, hfail⟩ := eligible_parts mint i helig
      rw [applyBatch_cons_okk now mint i rest st (upsertEffect now st mint i) hty
        (upsert_ok_eq now st mint i hfail)] at hr
      have hrest_ne : ∀ x ∈ rest, x.pubkey ≠ i.pubkey := by
        intro x hx hxe
        apply hnotin
        rw [← hxe]
        exact List.mem_map_of_mem _ hx
      have hr2 : r ∈ upsertEffect now st mint i :=
        applyBatch_no_touch now mint i.pubkey rest (upsertEffect now st mint i) hrest_ne r hr hk
      exact (upsertEffect_mem_keyed now st mint i r hr2 hk).1
    · by_cases hty : (j.account.data.parsed.type == "account") = true
      · cases hup : upsertHolderMariaDB now st mint j with
        | error e =>
          rw [applyBatch_cons_fail now mint j rest st e hty hup] at hr
          exact ih st i hmem helig hnodup2 r hr hk
        | ok st2 =>
          rw [applyBatch_cons_okk now mint j rest st st2 hty hup] at hr
          exact ih st2 i hmem helig hnodup2 r hr hk
      · rw [applyBatch_cons_skip now mint j rest st (bool_eq_false _ hty)] at hr
        exact ih st i hmem helig hnodup2 r hr hk

theorem hasKey_eq_of_forall₂ (n2 : Nat) (m k : String) :
    ∀ (x s1 : Store), List.Forall₂ (passRel n2) x s1 → hasKey x m k = hasKey s1 m k := by
  intro x s1 h
  induction h with
  | nil => rfl
  | @cons a b l1 l2 hab htail ih =>
    unfold hasKey at ih ⊢
    simp only [List.any_cons]
    rw [keyMatches_eq_of_scrub_eq m k a b hab.1, ih]

theorem scrubStore_eq_of_forall₂ (n2 : Nat) :
    ∀ (x s1 : Store), List.Forall₂ (passRel n2) x s1 → scrubStore x = scrubStore s1 := by
  intro x s1 h
  induction h with
  | nil => rfl
  | @cons a b l1 l2 hab htail ih =>
    unfold scrubStore at ih ⊢
    simp only [List.map_cons]
    rw [hab.1, ih]

theorem pass2_step (n2 : Nat) (mint : String) (i : ResultItem) :
    ∀ (x s1 : Store),
      List.Forall₂ (passRel n2) x s1 →
      (∀ r1 ∈ s1, keyMatches mint i.pubkey r1 = true → itemAgrees i r1) →
      List.Forall₂ (passRel n2)
        (x.map (fun r => if keyMatches mint i.pubkey r then applyItemFields n2 i r else r))
        s1 := by
  intro x s1 hf
  induction hf with
  | nil => intro _; exact List.Forall₂.nil
  | @cons a b l1 l2 hab htail ih =>
    intro hagree
    simp only [List.map_cons]
    refine List.Forall₂.cons ?_
      (ih (fun r1 hr1 hk => hagree r1 (List.mem_cons_of_mem b hr1) hk))
    by_cases hc : keyMatches mint i.pubkey a = true
    · rw [if_pos hc]
      have hkb : keyMatches mint i.pubkey b = true := by
        rw [← keyMatches_eq_of_scrub_eq mint i.pubkey a b hab.1]
        exact hc
      have hagb : itemAgrees i b := hagree b (List.mem_cons_self b l2) hkb
      have haga : itemAgrees i a := itemAgrees_of_scrub_eq i a b hab.1 hagb
      exact ⟨(scrub_applyItemFields n2 i a haga).trans hab.1, Or.inr rfl⟩
    · rw [if_neg hc]
      exact hab

theorem pass2 (n2 : Nat) (mint : String) (s1 : Store) :
    ∀ (items : List ResultItem) (x : Store),
      List.Forall₂ (passRel n2) x s1 →
      (∀ i ∈ items, eligible mint i = true →
        hasKey s1 mint i.pubkey = true ∧
        ∀ r1 ∈ s1, keyMatches mint i.pubkey r1 = true → itemAgrees i r1) →
      List.Forall₂ (passRel n2) (applyBatch n2 mint items x) s1 := by
  intro items
  induction items with
  | nil => intro x hf _; exact hf
  | cons j rest ih =>
    intro x hf hitems
    by_cases hel : eligible mint j = true
    · obtain ⟨hty, hfail⟩ := eligible_parts mint j hel
      rw [applyBatch_cons_okk n2 mint j rest x (upsertEffect n2 x mint j) hty
        (upsert_ok_eq n2 x mint j hfail)]
      have hkx : hasKey x mint j.pubkey = true := by
        rw [hasKey_eq_of_forall₂ n2 mint j.pubkey x s1 hf]
        exact (hitems j (List.mem_cons_self j rest) hel).1
      have hstep : List.Forall₂ (passRel n2) (upsertEffect n2 x mint j) s1 := by
        unfold upsertEffect
        rw [if_pos hkx]
        exact pass2_step n2 mint j x s1 hf (hitems j (List.mem_cons_self j rest) hel).2
      exact ih (upsertEffect n2 x mint j) hstep
        (fun i hi he => hitems i (List.mem_cons_of_mem j hi) he)
    · by_cases hty : (j.account.data.parsed.type == "account") = true
      · have hfail : upsertFails mint j = true := by
          have hel2 : eligible mint j = false := bool_eq_false _ hel
          unfold eligible at hel2
          rw [hty] at hel2
          simpa using hel2
        obtain ⟨e, he⟩ := upsert_fails_error n2 x mint j hfail
        rw [applyBatch_cons_fail n2 mint j rest x e hty he]
        exact ih x hf (fun i hi he2 => hitems i (List.mem_cons_of_mem j hi) he2)
      · rw [applyBatch_cons_skip n2 mint j rest x (bool_eq_false _ hty)]
        exact ih x hf (fun i hi he2 => hitems i (List.mem_cons_of_mem j hi) he2)

/-- C7.  A second sync pass over the same external payload (a batch whose
observations carry pairwise distinct pubkeys) is idempotent: the row count
is unchanged, every field of every row is unchanged except updated_at
(erasing updated_at makes the two stores equal), and updated_at is
monotonically non-decreasing pointwise when the second pass's clock is not
behind the stamps left by the first.  This holds because the upsert is keyed
by (mint_address, pubkey) and overwrites every mutable field of an existing
identity instead of inserting a duplicate. -/
theorem C7_sync_idempotent (n1 n2 : Nat) (mint : String) (items : List ResultItem)
    (st : Store)
    (hnodup : (items.map (fun i => i.pubkey)).Nodup)
    (hle : ∀ r ∈ applyBatch n1 mint items st, r.updated_at ≤ n2) :
    (applyBatch n2 mint items (applyBatch n1 mint items st)).length =
      (applyBatch n1 mint items st).length ∧
    scrubStore (applyBatch n2 mint items (applyBatch n1 mint items st)) =
      scrubStore (applyBatch n1 mint items st) ∧
    ∀ (j : Nat) (h2 : j < (applyBatch n2 mint items (applyBatch n1 mint items st)).length)
      (h1 : j < (applyBatch n1 mint items st).length),
      ((applyBatch n1 mint items st).get ⟨j, h1⟩).updated_at ≤
        ((applyBatch n2 mint items (applyBatch n1 mint items st)).get ⟨j, h2⟩).updated_at := by
  have hforall : List.Forall₂ (passRel n2)
      (applyBatch n2 mint items (applyBatch n1 mint items st))
      (applyBatch n1 mint items st) := by
    apply pass2
    · exact List.forall₂_same.mpr (fun a _ => ⟨rfl, Or.inl rfl⟩)
    · intro i hi hel
      exact ⟨hasKey_applyBatch_of_mem n1 mint items st i hi hel,
        fun r1 hr1 hk => applyBatch_last_write n1 mint items st i hi hel hnodup r1 hr1 hk⟩
  refine ⟨hforall.length_eq, scrubStore_eq_of_forall₂ n2 _ _ hforall, ?_⟩
  intro j h2 h1
  have hrel := (List.forall₂_iff_get.mp hforall).2 j h2 h1
  rcases hrel.2 with heq | heq
  · exact le_of_eq heq.symm
  · rw [heq]
    exact hle _ (List.get_mem _ _ _)

theorem C7_sync_idempotent_witness :
    (applyBatch 2 "M" [demoItem] (applyBatch 1 "M" [demoItem] [])).length =
      (applyBatch 1 "M" [demoItem] []).length ∧
    scrubStore (applyBatch 2 "M" [demoItem] (applyBatch 1 "M" [demoItem] [])) =
      scrubStore (applyBatch 1 "M" [demoItem] []) ∧
    ∀ (j : Nat) (h2 : j < (applyBatch 2 "M" [demoItem] (applyBatch 1 "M" [demoItem] [])).length)
      (h1 : j < (applyBatch 1 "M" [demoItem] []).length),
      ((applyBatch 1 "M" [demoItem] []).get ⟨j, h1⟩).updated_at ≤
        ((applyBatch 2 "M" [demoItem] (applyBatch 1 "M" [demoItem] [])).get ⟨j, h2⟩).updated_at :=
  C7_sync_idempotent 1 2 "M" [demoItem] [] (by decide) (by decide)

theorem C10_empty_result_no_tx_witness :
    fetchAndStoreData 3 "M" (some (RPCResponse.mk [] none)) [frozenRow] =
      { store := [frozenRow], txOpened := false, upserted := 0, skipped := 0 } :=
  C10_empty_result_no_tx 3 "M" (RPCResponse.mk [] none) [frozenRow] (by decide) rfl rfl

end SplHolder
